import Mathlib

/-!
Verification of the netio library: a shallow embedding of its JSON
response writer (`Write`), request decoder (`Read`), validation
accumulator (`Validator`) and error responder (`Error`), translated from
netio.go, errors.go and validator.go, together with theorems settling
the specification claims about them.
-/

/-- Reason phrases for HTTP status codes, as in the table backing Go's
http.StatusText. A code not in the table maps to the empty string. -/
def statusTextTable : List (Int × String) :=
  [(100, "Continue"),
   (101, "Switching Protocols"),
   (102, "Processing"),
   (103, "Early Hints"),
   (200, "OK"),
   (201, "Created"),
   (202, "Accepted"),
   (203, "Non-Authoritative Information"),
   (204, "No Content"),
   (205, "Reset Content"),
   (206, "Partial Content"),
   (207, "Multi-Status"),
   (208, "Already Reported"),
   (226, "IM Used"),
   (300, "Multiple Choices"),
   (301, "Moved Permanently"),
   (302, "Found"),
   (303, "See Other"),
   (304, "Not Modified"),
   (305, "Use Proxy"),
   (307, "Temporary Redirect"),
   (308, "Permanent Redirect"),
   (400, "Bad Request"),
   (401, "Unauthorized"),
   (402, "Payment Required"),
   (403, "Forbidden"),
   (404, "Not Found"),
   (405, "Method Not Allowed"),
   (406, "Not Acceptable"),
   (407, "Proxy Authentication Required"),
   (408, "Request Timeout"),
   (409, "Conflict"),
   (410, "Gone"),
   (411, "Length Required"),
   (412, "Precondition Failed"),
   (413, "Request Entity Too Large"),
   (414, "Request URI Too Long"),
   (415, "Unsupported Media Type"),
   (416, "Requested Range Not Satisfiable"),
   (417, "Expectation Failed"),
   (418, "I\x27m a teapot"),
   (421, "Misdirected Request"),
   (422, "Unprocessable Entity"),
   (423, "Locked"),
   (424, "Failed Dependency"),
   (425, "Too Early"),
   (426, "Upgrade Required"),
   (428, "Precondition Required"),
   (429, "Too Many Requests"),
   (431, "Request Header Fields Too Large"),
   (451, "Unavailable For Legal Reasons"),
   (500, "Internal Server Error"),
   (501, "Not Implemented"),
   (502, "Bad Gateway"),
   (503, "Service Unavailable"),
   (504, "Gateway Timeout"),
   (505, "HTTP Version Not Supported"),
   (506, "Variant Also Negotiates"),
   (507, "Insufficient Storage"),
   (508, "Loop Detected"),
   (510, "Not Extended"),
   (511, "Network Authentication Required")]

/-- Go's http.StatusText: reason phrase for a status code, or the empty
string when the code is unknown. -/
def statusText (code : Int) : String :=
  (statusTextTable.lookup code).getD ""

/-- The message of the sentinel NetioUnknownErr from errors.go. -/
def netioUnknownErrMsg : String := "NetioUnknownError: error not provided"

/-- The message of the sentinel NetioFallbackErr from errors.go. -/
def netioFallbackErrMsg : String := "NetioErrorFallback: something went wrong..."

/-- The message of the sentinel NetioValidationErr from errors.go. -/
def netioValidationErrMsg : String := "validation failed"

/-- The ErrorResponse struct from errors.go. Timestamps are modelled as a
Nat passed in by the caller standing for the value of time.Now() at
construction; the ValidationErrors field of type any is none for Go nil
and some m when it holds a validator's error map. -/
structure ErrorResponse where
  status : Int
  statusText : String
  message : String
  validationErrors : Option (List (String × String))
  timestamp : Nat
deriving DecidableEq

/-- A Go value placed in an Envelope (map[string]any). funcVal stands
for any value encoding/json cannot serialize (function, channel, ...);
errorResponseVal embeds the always-serializable ErrorResponse struct. -/
inductive GoValue where
  | null : GoValue
  | boolVal (b : Bool) : GoValue
  | intVal (n : Int) : GoValue
  | strVal (s : String) : GoValue
  | arrVal (elems : List GoValue) : GoValue
  | objVal (fields : List (String × GoValue)) : GoValue
  | funcVal : GoValue
  | errorResponseVal (r : ErrorResponse) : GoValue

/-- The Envelope type from netio.go: map[string]any, serialized as one
JSON object. Modelled as an association list with string keys. -/
abbrev Envelope := List (String × GoValue)

mutual

/-- Whether encoding/json can marshal the value: true unless a funcVal
(unsupported type) occurs somewhere inside it. -/
def GoValue.marshalable : GoValue → Bool
  | GoValue.null => true
  | GoValue.boolVal _ => true
  | GoValue.intVal _ => true
  | GoValue.strVal _ => true
  | GoValue.arrVal elems => goListMarshalable elems
  | GoValue.objVal fields => goFieldsMarshalable fields
  | GoValue.funcVal => false
  | GoValue.errorResponseVal _ => true

/-- Marshalability of every element of a JSON array. -/
def goListMarshalable : List GoValue → Bool
  | [] => true
  | x :: rest => x.marshalable && goListMarshalable rest

/-- Marshalability of every field value of a JSON object. -/
def goFieldsMarshalable : List (String × GoValue) → Bool
  | [] => true
  | (_, x) :: rest => x.marshalable && goFieldsMarshalable rest

end

/-- json.MarshalIndent succeeds on an Envelope iff every field value is
marshalable. -/
def envelopeMarshalable (data : Envelope) : Bool :=
  goFieldsMarshalable data

/-- The http.ResponseWriter as observed by this library (httptest's
recorder): a header map, the explicitly written status (none until
WriteHeader is called), and the sequence of envelope payloads written to
the body. -/
structure ResponseWriter where
  headers : String → Option (List String)
  status : Option Int
  body : List Envelope

/-- A fresh response recorder: no headers, no status written, empty body. -/
def freshRecorder : ResponseWriter :=
  { headers := fun _ => none, status := none, body := [] }

/-- Direct assignment w.Header()[key] = values: replaces the whole value
list for that key (no canonicalization, as in Go map assignment). -/
def setHeaderList (w : ResponseWriter) (key : String) (values : List String) : ResponseWriter :=
  { w with headers := fun k => if k = key then some values else w.headers k }

/-- w.WriteHeader(code): records the status code; net/http ignores a
second WriteHeader call, so the status is only set when still unset. -/
def writeHeader (w : ResponseWriter) (code : Int) : ResponseWriter :=
  if w.status.isSome then w else { w with status := some code }

/-- The error values Write can return (errors.go / netio.go sentinels). -/
inductive NetioErr where
  | marshalFailure : NetioErr
deriving DecidableEq

/-- Write from netio.go: marshals the envelope (returning
ErrNetioMarshalFailure on failure, before anything is written to w),
then applies each extra header by direct map assignment, sets
Content-Type to application/json, writes the status header and finally
the marshaled body. Returns the possibly updated writer and Go's error
result (none for nil). -/
def Write (w : ResponseWriter) (status : Int) (data : Envelope)
    (headers : List (String × List String)) : ResponseWriter × Option NetioErr :=
  if envelopeMarshalable data then
    let w1 := headers.foldl (fun acc kv => setHeaderList acc kv.1 kv.2) w
    let w2 := setHeaderList w1 "Content-Type" ["application/json"]
    let w3 := writeHeader w2 status
    let w4 := { w3 with body := w3.body ++ [data] }
    (w4, none)
  else
    (w, some NetioErr.marshalFailure)

/-- A JSON document in a request body. -/
inductive Json where
  | null : Json
  | boolLit (b : Bool) : Json
  | num (n : Int) : Json
  | str (s : String) : Json
  | arr (elems : List Json) : Json
  | obj (fields : List (String × Json)) : Json

/-- The static shape of a decode destination (the dst argument of Read):
a field of type any accepts every JSON value, a primitive field accepts
the matching primitive, and a struct accepts a JSON object whose keys
all name declared fields (dec.DisallowUnknownFields: an undeclared key
is an unknown-field error). -/
inductive Shape where
  | anyShape : Shape
  | strShape : Shape
  | numShape : Shape
  | boolShape : Shape
  | structShape (fields : List (String × Shape)) : Shape

mutual

/-- Whether a strict decode (DisallowUnknownFields) of the JSON value
into a destination of the given shape succeeds. JSON null decodes into
any destination (Go leaves the value untouched). -/
def decodeJson : Shape → Json → Bool
  | _, Json.null => true
  | Shape.anyShape, _ => true
  | Shape.strShape, Json.str _ => true
  | Shape.strShape, _ => false
  | Shape.numShape, Json.num _ => true
  | Shape.numShape, _ => false
  | Shape.boolShape, Json.boolLit _ => true
  | Shape.boolShape, _ => false
  | Shape.structShape fields, Json.obj kvs => decodeObjFields fields kvs
  | Shape.structShape _, _ => false

/-- Strict decode of the fields of a JSON object against the declared
fields of a struct: every key must be declared and its value must decode
into the declared field shape. -/
def decodeObjFields : List (String × Shape) → List (String × Json) → Bool
  | _, [] => true
  | fields, (k, j) :: rest =>
    match fields.lookup k with
    | some s => decodeJson s j && decodeObjFields fields rest
    | none => false

end

/-- A request body, abstracted as its total byte length together with
the sequence of JSON documents its bytes spell out. -/
structure RequestBody where
  size : Nat
  docs : List Json

/-- An io.Reader the JSON decoder can be built on: either the raw
request body, or the body wrapped by http.MaxBytesReader with a limit. -/
inductive Reader where
  | plain (b : RequestBody) : Reader
  | limited (b : RequestBody) (limit : Nat) : Reader

/-- http.MaxBytesReader(w, body, limit): returns a new reader enforcing
the byte ceiling over the body; the original body is not modified. -/
def maxBytesReader (_w : ResponseWriter) (b : RequestBody) (limit : Nat) : Reader :=
  Reader.limited b limit

/-- The state of a json.Decoder: the JSON documents not yet consumed,
and whether the underlying reader reports a max-bytes violation
(a limited reader over a body longer than its limit errors while the
decoder reads from it). -/
structure Decoder where
  remaining : List Json
  overLimit : Bool

/-- json.NewDecoder over a reader. -/
def newDecoder : Reader → Decoder
  | Reader.plain b => { remaining := b.docs, overLimit := false }
  | Reader.limited b limit => { remaining := b.docs, overLimit := limit < b.size }

/-- The outcome of one dec.Decode call: a successful decode, io.EOF at
end of stream, a max-bytes error from the underlying reader, or a
decode error (syntax, type or unknown-field). -/
inductive DecodeResult where
  | success : DecodeResult
  | eof : DecodeResult
  | maxBytes : DecodeResult
  | failure : DecodeResult
deriving DecidableEq

/-- One dec.Decode(dst) step against a destination shape. -/
def Decoder.decodeStep (d : Decoder) (shape : Shape) : DecodeResult × Decoder :=
  if d.overLimit then (DecodeResult.maxBytes, d)
  else
    match d.remaining with
    | [] => (DecodeResult.eof, d)
    | doc :: rest =>
      (if decodeJson shape doc then DecodeResult.success else DecodeResult.failure,
       { d with remaining := rest })

/-- The errors Read can return: the first Decode's error passed through
unchanged (EOF, max-bytes or decode failure), or the single-json-value
error built when a second document is found. -/
inductive ReadError where
  | firstDecodeFailed (r : DecodeResult) : ReadError
  | multipleValues : ReadError
deriving DecidableEq

/-- The shape of the anonymous empty struct the second decode targets. -/
def emptyStructShape : Shape := Shape.structShape []

/-- Read from netio.go: computes http.MaxBytesReader(w, r.Body, 1 MiB)
but discards its result (as the source does), builds the decoder on the
raw r.Body, strict-decodes one document into dst, returning any error
unchanged, then decodes again into an anonymous empty struct and fails
with the single-json-value error unless that second decode hits io.EOF. -/
def Read (w : ResponseWriter) (body : RequestBody) (dstShape : Shape) :
    Except ReadError Unit :=
  let maxB : Nat := 1048576
  let _ := maxBytesReader w body maxB
  let dec := newDecoder (Reader.plain body)
  match dec.decodeStep dstShape with
  | (DecodeResult.success, dec2) =>
    match dec2.decodeStep emptyStructShape with
    | (DecodeResult.eof, _) => Except.ok ()
    | _ => Except.error ReadError.multipleValues
  | (r, _) => Except.error (ReadError.firstDecodeFailed r)

/-- The Validator from validator.go: a map from field name to the first
error message recorded for it, modelled as an association list whose
lookup is the map access. -/
structure Validator where
  errors : List (String × String)
deriving DecidableEq

/-- NewValidator: a validator with an empty error map. -/
def NewValidator : Validator := { errors := [] }

/-- Valid: true iff the error map is empty (len(v.Errors) == 0). -/
def Validator.valid (v : Validator) : Bool :=
  v.errors.isEmpty

/-- AddError: records the message under the key only when the key has no
entry yet (first failure wins). -/
def Validator.addError (v : Validator) (key message : String) : Validator :=
  if (v.errors.lookup key).isSome then v
  else { errors := (key, message) :: v.errors }

/-- Check: records the message under the key when the condition is
false; a true condition leaves the validator untouched. -/
def Validator.check (v : Validator) (condition : Bool) (key message : String) : Validator :=
  if condition then v else v.addError key message

/-- One mutating call on a validator, for stating properties over
arbitrary call sequences. -/
inductive VOp where
  | checkOp (c : Bool) (k m : String) : VOp
  | addOp (k m : String) : VOp

/-- Apply one Check or AddError call. -/
def applyVOp (v : Validator) : VOp → Validator
  | VOp.checkOp c k m => v.check c k m
  | VOp.addOp k m => v.addError k m

/-- Apply a sequence of Check/AddError calls in order. -/
def runVOps (v : Validator) (ops : List VOp) : Validator :=
  ops.foldl applyVOp v

/-- The seen-set loop of HasDuplicates from validator.go: the Go
map[T]bool of values already visited is modelled as the list of those
values; membership in the set is membership in the list. -/
def hasDupAux {T : Type} [DecidableEq T] (seen : List T) : List T → Bool
  | [] => false
  | v :: rest => if v ∈ seen then true else hasDupAux (v :: seen) rest

/-- HasDuplicates: single pass over the values with a set of those
already seen, returning true on the first value seen twice. -/
def HasDuplicates {T : Type} [DecidableEq T] (values : List T) : Bool :=
  hasDupAux [] values

/-- IsIn from validator.go: slices.Contains over the allowed values. -/
def IsIn {T : Type} [DecidableEq T] (value : T) (allowedValues : List T) : Bool :=
  allowedValues.contains value

/-- ErrorFallback from errors.go: the generic 500 envelope used when the
primary error write fails. -/
def ErrorFallback (now : Nat) : Envelope :=
  [("error", GoValue.errorResponseVal
    { status := 500
      statusText := statusText 500
      message := netioFallbackErrMsg
      validationErrors := none
      timestamp := now })]

/-- BuildError from errors.go: status and message as given, StatusText
from the reason-phrase table, timestamp from time.Now() (the now
parameter), no validation detail. -/
def BuildError (status : Int) (message : String) (now : Nat) : ErrorResponse :=
  { status := status
    statusText := statusText status
    message := message
    validationErrors := none
    timestamp := now }

/-- BuildErrorWithValidation from errors.go: BuildError's fields plus
the validator's error map as validation detail. -/
def BuildErrorWithValidation (status : Int) (message : String) (v : Validator)
    (now : Nat) : ErrorResponse :=
  { status := status
    statusText := statusText status
    message := message
    validationErrors := some v.errors
    timestamp := now }

/-- Error from errors.go: defaults a nil error to NetioUnknownErr and an
empty key to error, builds the response from the validator (message
fixed to the NetioValidationErr text) or from the error's message,
wraps it in an envelope under the key and writes it with the given code;
if that write fails it writes the generic fallback envelope with 500.
Go errors are modelled by their message string (none for nil), time.Now()
by the now parameter. -/
def Error (w : ResponseWriter) (key : String) (e : Option String) (code : Int)
    (v : Option Validator) (now : Nat) : ResponseWriter :=
  let e1 := match e with
    | none => netioUnknownErrMsg
    | some s => s
  let key1 := if key = "" then "error" else key
  let res := match v with
    | some vv => BuildErrorWithValidation code netioValidationErrMsg vv now
    | none => BuildError code e1 now
  let env : Envelope := [(key1, GoValue.errorResponseVal res)]
  match Write w code env [] with
  | (w1, none) => w1
  | (w1, some _) => (Write w1 500 (ErrorFallback now) []).1

/-- The last envelope written to the response body, if any. -/
def lastEnvelope (w : ResponseWriter) : Option Envelope :=
  w.body.getLast?

/-- A message recorded for a key survives one AddError call (on any key). -/
theorem addError_preserves_lookup (v : Validator) (k2 m2 k m : String)
    (h : v.errors.lookup k = some m) : (v.addError k2 m2).errors.lookup k = some m := by
  unfold Validator.addError
  split
  · exact h
  · rename_i hnone
    have hne : ¬ k = k2 := by
      intro he
      subst he
      rw [h] at hnone
      simp at hnone
    have hb : (k == k2) = false := by
      simp [hne]
    simp [List.lookup, hb, h]

/-- A message recorded for a key survives one Check or AddError call. -/
theorem applyVOp_preserves_lookup (v : Validator) (op : VOp) (k m : String)
    (h : v.errors.lookup k = some m) : (applyVOp v op).errors.lookup k = some m := by
  cases op with
  | checkOp c k2 m2 =>
    cases c with
    | true => simpa [applyVOp, Validator.check] using h
    | false => simpa [applyVOp, Validator.check] using addError_preserves_lookup v k2 m2 k m h
  | addOp k2 m2 => exact addError_preserves_lookup v k2 m2 k m h

/-- A message recorded for a key survives any sequence of Check and
AddError calls. -/
theorem runVOps_preserves_lookup (ops : List VOp) (v : Validator) (k m : String)
    (h : v.errors.lookup k = some m) : (runVOps v ops).errors.lookup k = some m := by
  induction ops generalizing v with
  | nil => exact h
  | cons op rest ih =>
    simp only [runVOps, List.foldl] at *
    exact ih (applyVOp v op) (applyVOp_preserves_lookup v op k m h)

/-- C7: once a field key has a recorded message, no later Check or
AddError on that key (or any other) overwrites it; after Check(false, k,
m1) then Check(false, k, m2) from a state where k is unset, the entry
for k is m1 (first failure wins); and Check with a true condition never
modifies the validator. -/
theorem c7_first_failure_wins (v : Validator) (k m m2 : String) (ops : List VOp) :
    (v.errors.lookup k = some m → (runVOps v ops).errors.lookup k = some m) ∧
    (v.check true k m = v) ∧
    (v.errors.lookup k = none →
      ((v.check false k m).check false k m2).errors.lookup k = some m) := by
  refine ⟨fun h => runVOps_preserves_lookup ops v k m h, ?_, ?_⟩
  · simp [Validator.check]
  · intro h
    have hstep : v.check false k m = { errors := (k, m) :: v.errors } := by
      simp [Validator.check, Validator.addError, h]
    have h1 : (({ errors := (k, m) :: v.errors } : Validator)).errors.lookup k = some m := by
      simp [List.lookup]
    rw [hstep]
    have h2 : (({ errors := (k, m) :: v.errors } : Validator)).check false k m2
        = { errors := (k, m) :: v.errors } := by
      simp [Validator.check, Validator.addError, h1]
    rw [h2]
    exact h1

/-- Witness for C7 at concrete inputs: a recorded message survives a
later Check and AddError on its key, a true Check is the identity, and
two failing Checks on one key keep the first message. -/
theorem c7_first_failure_wins_witness :
    (runVOps { errors := [("j", "m0")] }
        [VOp.checkOp false "j" "mX", VOp.addOp "j" "mY"]).errors.lookup "j" = some "m0" ∧
    (NewValidator.check true "k" "m1" = NewValidator) ∧
    ((NewValidator.check false "k" "m1").check false "k" "m2").errors.lookup "k" = some "m1" :=
  ⟨(c7_first_failure_wins { errors := [("j", "m0")] } "j" "m0" "zz"
      [VOp.checkOp false "j" "mX", VOp.addOp "j" "mY"]).1 rfl,
   (c7_first_failure_wins NewValidator "k" "m1" "m2" []).2.1,
   (c7_first_failure_wins NewValidator "k" "m1" "m2" []).2.2 rfl⟩

/-- C8: Valid() is true exactly when no field has a recorded error, and
a freshly created validator is valid. -/
theorem c8_valid_iff_no_errors (v : Validator) :
    (v.valid = true ↔ ∀ k, v.errors.lookup k = none) ∧ NewValidator.valid = true := by
  refine ⟨⟨?_, ?_⟩, rfl⟩
  · intro h k
    cases hv : v.errors with
    | nil => simp [List.lookup]
    | cons p rest =>
      rw [Validator.valid, hv] at h
      simp at h
  · intro h
    cases hv : v.errors with
    | nil => simp [Validator.valid, hv]
    | cons p rest =>
      exfalso
      obtain ⟨k0, m0⟩ := p
      have hk := h k0
      rw [hv] at hk
      simp [List.lookup] at hk

/-- Witness for C8: a fresh validator is valid. -/
theorem c8_valid_iff_no_errors_witness : NewValidator.valid = true :=
  (c8_valid_iff_no_errors NewValidator).2

/-- C1 (code evaluated at the failing input): a request body one byte
over the 1 MiB ceiling holding a single valid JSON object is decoded
successfully by Read; no body-size error is returned, because the
reader returned by http.MaxBytesReader is discarded. The last conjunct
shows the discarded limited reader would indeed have been over limit. -/
theorem c1_read_ignores_body_size_limit :
    Read freshRecorder { size := 1048577, docs := [Json.obj [("name", Json.str "t")]] }
      (Shape.structShape [("name", Shape.strShape)]) = Except.ok () ∧
    1048576 < 1048577 ∧
    (newDecoder (maxBytesReader freshRecorder
      { size := 1048577, docs := [Json.obj [("name", Json.str "t")]] } 1048576)).overLimit
      = true :=
  ⟨rfl, by decide, rfl⟩

/-- C2 (code evaluated at the failing input): Write on a non-marshalable
payload returns the marshal-failure error with the writer unchanged; in
particular no status code is recorded on the destination. -/
theorem c2_marshal_failure_leaves_status_unset :
    Write freshRecorder 500 [("data", GoValue.funcVal)] [] =
      (freshRecorder, some NetioErr.marshalFailure) ∧
    (Write freshRecorder 500 [("data", GoValue.funcVal)] []).1.status = none :=
  ⟨rfl, rfl⟩

/-- The seen-set pass returns false exactly when the values are pairwise
distinct and none of them is already in the seen set. -/
theorem hasDupAux_eq_false_iff {T : Type} [DecidableEq T] (l : List T) :
    ∀ seen : List T, hasDupAux seen l = false ↔ l.Nodup ∧ ∀ x ∈ l, x ∉ seen := by
  induction l with
  | nil =>
    intro seen
    simp [hasDupAux]
  | cons v rest ih =>
    intro seen
    by_cases hv : v ∈ seen
    · simp only [hasDupAux, if_pos hv]
      constructor
      · intro hfalse
        cases hfalse
      · rintro ⟨_, hall⟩
        exact absurd hv (hall v (List.mem_cons_self v rest))
    · simp only [hasDupAux, if_neg hv]
      rw [ih (v :: seen)]
      constructor
      · rintro ⟨hnd, hall⟩
        refine ⟨List.nodup_cons.mpr ⟨?_, hnd⟩, ?_⟩
        · intro hmem
          exact (hall v hmem) (List.mem_cons_self v seen)
        · intro x hx
          rcases List.mem_cons.mp hx with rfl | hx2
          · exact hv
          · intro hxs
            exact hall x hx2 (List.mem_cons_of_mem v hxs)
      · rintro ⟨hnd, hall⟩
        refine ⟨(List.nodup_cons.mp hnd).2, ?_⟩
        intro x hx hxs
        rcases List.mem_cons.mp hxs with rfl | hxs2
        · exact (List.nodup_cons.mp hnd).1 hx
        · exact hall x (List.mem_cons_of_mem v hx) hxs2

/-- HasDuplicates returns false exactly on duplicate-free lists. -/
theorem hasDuplicates_eq_false_iff_nodup {T : Type} [DecidableEq T] (l : List T) :
    HasDuplicates l = false ↔ l.Nodup := by
  rw [HasDuplicates, hasDupAux_eq_false_iff l []]
  simp

/-- C9: HasDuplicates is true exactly when two distinct positions of the
slice hold equal elements; in particular it is true on [1, 2, 2, 3] and
false on the empty slice. -/
theorem c9_hasDuplicates_iff :
    (∀ (T : Type) [DecidableEq T] (l : List T),
      HasDuplicates l = true ↔ ∃ i j : Fin l.length, l.get i = l.get j ∧ i ≠ j) ∧
    HasDuplicates [1, 2, 2, 3] = true ∧ HasDuplicates ([] : List Nat) = false := by
  refine ⟨?_, rfl, rfl⟩
  intro T _ l
  have h1 : HasDuplicates l = true ↔ ¬ l.Nodup := by
    rw [← hasDuplicates_eq_false_iff_nodup l]
    cases HasDuplicates l <;> simp
  rw [h1, List.nodup_iff_injective_get, Function.not_injective_iff]

/-- Witness for C9: the iff applied at the concrete list [1, 2, 2, 3]
yields two distinct positions holding equal elements. -/
theorem c9_hasDuplicates_iff_witness :
    ∃ i j : Fin ([1, 2, 2, 3] : List Nat).length,
      ([1, 2, 2, 3] : List Nat).get i = ([1, 2, 2, 3] : List Nat).get j ∧ i ≠ j :=
  (c9_hasDuplicates_iff.1 Nat [1, 2, 2, 3]).mp rfl

/-- C5: when the body's bytes spell the documents d followed by ds, with
d decoding cleanly into the destination, Read fails with the
multiple-values error whenever ds is nonempty, and succeeds when d is
the only document. -/
theorem c5_single_json_document (w : ResponseWriter) (sz : Nat) (dstShape : Shape)
    (d : Json) (ds : List Json) (hdec : decodeJson dstShape d = true) :
    (ds ≠ [] → Read w { size := sz, docs := d :: ds } dstShape =
      Except.error ReadError.multipleValues) ∧
    Read w { size := sz, docs := [d] } dstShape = Except.ok () := by
  constructor
  · intro hne
    cases ds with
    | nil => exact absurd rfl hne
    | cons d2 rest =>
      cases hd2 : decodeJson emptyStructShape d2 <;>
        simp [Read, newDecoder, Decoder.decodeStep, hdec, hd2]
  · simp [Read, newDecoder, Decoder.decodeStep, hdec]

/-- Witness for C5 at the spec's example: a body spelling two
concatenated objects is rejected with the multiple-values error even
though the first object decodes cleanly, and the first object alone is
accepted. -/
theorem c5_single_json_document_witness :
    decodeJson (Shape.structShape [("name", Shape.strShape), ("age", Shape.numShape)])
      (Json.obj [("name", Json.str "test")]) = true ∧
    Read freshRecorder
      { size := 25,
        docs := [Json.obj [("name", Json.str "test")], Json.obj [("age", Json.num 30)]] }
      (Shape.structShape [("name", Shape.strShape), ("age", Shape.numShape)]) =
      Except.error ReadError.multipleValues ∧
    Read freshRecorder
      { size := 15, docs := [Json.obj [("name", Json.str "test")]] }
      (Shape.structShape [("name", Shape.strShape), ("age", Shape.numShape)]) =
      Except.ok () :=
  ⟨rfl,
   (c5_single_json_document freshRecorder 25
     (Shape.structShape [("name", Shape.strShape), ("age", Shape.numShape)])
     (Json.obj [("name", Json.str "test")]) [Json.obj [("age", Json.num 30)]] rfl).1
     (List.cons_ne_nil _ _),
   (c5_single_json_document freshRecorder 15
     (Shape.structShape [("name", Shape.strShape), ("age", Shape.numShape)])
     (Json.obj [("name", Json.str "test")]) [] rfl).2⟩

/-- Applying extra headers leaves every key not in the map untouched. -/
theorem foldl_setHeader_not_mem (H : List (String × List String)) (w : ResponseWriter)
    (k : String) (h : k ∉ H.map Prod.fst) :
    (H.foldl (fun acc kv => setHeaderList acc kv.1 kv.2) w).headers k = w.headers k := by
  induction H generalizing w with
  | nil => rfl
  | cons kv rest ih =>
    simp only [List.map_cons, List.mem_cons, not_or] at h
    simp only [List.foldl]
    rw [ih (setHeaderList w kv.1 kv.2) h.2]
    simp [setHeaderList, h.1]

/-- Applying extra headers with pairwise-distinct keys gives every key
in the map exactly the value list the map holds for it. -/
theorem foldl_setHeader_mem (H : List (String × List String))
    (k : String) (vs : List String) :
    ∀ w : ResponseWriter, (H.map Prod.fst).Nodup → (k, vs) ∈ H →
      (H.foldl (fun acc kv => setHeaderList acc kv.1 kv.2) w).headers k = some vs := by
  induction H with
  | nil =>
    intro w _ hmem
    cases hmem
  | cons kv rest ih =>
    intro w hnd hmem
    simp only [List.map_cons] at hnd
    have hnd2 := List.nodup_cons.mp hnd
    simp only [List.foldl]
    rcases List.mem_cons.mp hmem with heq | hmem2
    · cases heq
      rw [foldl_setHeader_not_mem rest (setHeaderList w k vs) k hnd2.1]
      simp [setHeaderList]
    · exact ih (setHeaderList w kv.1 kv.2) hnd2.2 hmem2

/-- WriteHeader never changes the header map. -/
theorem writeHeader_headers (w : ResponseWriter) (code : Int) :
    (writeHeader w code).headers = w.headers := by
  unfold writeHeader
  split <;> rfl

/-- WriteHeader never changes the body. -/
theorem writeHeader_body (w : ResponseWriter) (code : Int) :
    (writeHeader w code).body = w.body := by
  unfold writeHeader
  split <;> rfl

/-- WriteHeader on a writer with no status yet records the code. -/
theorem writeHeader_status_of_none (w : ResponseWriter) (code : Int) (h : w.status = none) :
    (writeHeader w code).status = some code := by
  unfold writeHeader
  simp [h]

/-- C6 counterexample: a header map carrying the key Content-Type does
not survive Write: the destination ends with application/json there, not
the caller's value list, refuting the claim for that key. -/
theorem c6_content_type_counterexample :
    ¬ ((Write freshRecorder 200 [("status", GoValue.strVal "success")]
        [("Content-Type", ["text/plain"])]).1.headers "Content-Type" = some ["text/plain"]) := by
  decide

/-- C6 amended: for every header map with pairwise-distinct keys, every
key other than Content-Type ends up in the destination with exactly the
value list the map gives it (each key replaces any same-named header);
the Content-Type key itself is overwritten to application/json after the
map is applied. -/
theorem c6_extra_headers_applied (w : ResponseWriter) (status : Int) (data : Envelope)
    (H : List (String × List String)) (k : String) (vs : List String)
    (hm : envelopeMarshalable data = true) (hnd : (H.map Prod.fst).Nodup)
    (hmem : (k, vs) ∈ H) (hk : k ≠ "Content-Type") :
    ((Write w status data H).1).headers k = some vs := by
  simp only [Write, hm, if_true]
  rw [writeHeader_headers]
  simp only [setHeaderList, hk, if_false]
  exact foldl_setHeader_mem H k vs w hnd hmem

/-- Witness for C6 amended at a concrete two-entry header map. -/
theorem c6_extra_headers_applied_witness :
    envelopeMarshalable [("status", GoValue.strVal "success")] = true ∧
    ((([("X-Custom", ["v1"]), ("X-Many", ["a", "b"])] : List (String × List String)).map
      Prod.fst).Nodup) ∧
    ("X-Many", ["a", "b"]) ∈
      ([("X-Custom", ["v1"]), ("X-Many", ["a", "b"])] : List (String × List String)) ∧
    "X-Many" ≠ "Content-Type" ∧
    ((Write freshRecorder 200 [("status", GoValue.strVal "success")]
        [("X-Custom", ["v1"]), ("X-Many", ["a", "b"])]).1.headers "X-Many" = some ["a", "b"]) :=
  ⟨rfl, by decide, by decide, by decide,
   c6_extra_headers_applied freshRecorder 200 [("status", GoValue.strVal "success")]
     [("X-Custom", ["v1"]), ("X-Many", ["a", "b"])] "X-Many" ["a", "b"]
     rfl (by decide) (by decide) (by decide)⟩

/-- The envelope Error builds is always marshalable. -/
theorem errorEnvelope_marshalable (k : String) (r : ErrorResponse) :
    envelopeMarshalable [(k, GoValue.errorResponseVal r)] = true := rfl

/-- Error always takes the primary write path and appends exactly one
envelope holding the ErrorResponse it built: key defaulted, message from
the validator policy or the (defaulted) error. -/
theorem Error_body (w : ResponseWriter) (key : String) (e : Option String) (code : Int)
    (v : Option Validator) (now : Nat) :
    (Error w key e code v now).body = w.body ++
      [[((if key = "" then "error" else key), GoValue.errorResponseVal
        (match v with
          | some vv => BuildErrorWithValidation code netioValidationErrMsg vv now
          | none => BuildError code (match e with
              | none => netioUnknownErrMsg
              | some s => s) now))]] := by
  cases v with
  | none =>
    cases e <;>
      simp [Error, Write, envelopeMarshalable, goFieldsMarshalable, GoValue.marshalable,
        writeHeader_body, setHeaderList]
  | some vv =>
    simp [Error, Write, envelopeMarshalable, goFieldsMarshalable, GoValue.marshalable,
      writeHeader_body, setHeaderList]

/-- Error records the given code as the response status when no status
was written yet. -/
theorem Error_status (w : ResponseWriter) (key : String) (e : Option String) (code : Int)
    (v : Option Validator) (now : Nat) (h : w.status = none) :
    (Error w key e code v now).status = some code := by
  cases v <;>
    simp [Error, Write, envelopeMarshalable, goFieldsMarshalable, GoValue.marshalable,
      writeHeader, setHeaderList, h]

/-- C3 counterexample: Error with the out-of-range code 700 leaves 700
both as the HTTP status of the response and in the emitted
ErrorResponse's status field; it is not normalized to 500. -/
theorem c3_no_normalization_counterexample :
    (Error freshRecorder "error" none 700 none 0).status = some 700 ∧
    lastEnvelope (Error freshRecorder "error" none 700 none 0) =
      some [("error", GoValue.errorResponseVal (BuildError 700 netioUnknownErrMsg 0))] ∧
    (BuildError 700 netioUnknownErrMsg 0).status = 700 ∧
    ¬ ((Error freshRecorder "error" none 700 none 0).status = some 500) :=
  ⟨rfl, rfl, rfl, by decide⟩

/-- C3 amended: the error responder passes every status code through
unchanged (no normalization of codes outside 100 to 599): the code is
recorded as the HTTP status whenever none was written yet, and appears
verbatim in the status field of the emitted ErrorResponse. -/
theorem c3_status_passed_through (w : ResponseWriter) (key : String) (e : Option String)
    (code : Int) (v : Option Validator) (now : Nat) (h : w.status = none) :
    (Error w key e code v now).status = some code ∧
    ∃ k r, (Error w key e code v now).body = w.body ++ [[(k, GoValue.errorResponseVal r)]]
      ∧ r.status = code := by
  refine ⟨Error_status w key e code v now h, ?_⟩
  refine ⟨_, _, Error_body w key e code v now, ?_⟩
  cases v with
  | some vv => rfl
  | none => rfl

/-- Witness for C3 amended at the out-of-range code 700. -/
theorem c3_status_passed_through_witness :
    freshRecorder.status = none ∧ (Error freshRecorder "" none 700 none 0).status = some 700 :=
  ⟨rfl, (c3_status_passed_through freshRecorder "" none 700 none 0 rfl).1⟩

/-- C4 counterexample: for the in-range code 400 with a nil validator
and the error boom, the emitted ErrorResponse's message is boom, not
the reason phrase Bad Request; the reason phrase sits in the separate
status-text field. -/
theorem c4_message_not_reason_phrase :
    lastEnvelope (Error freshRecorder "error" (some "boom") 400 none 0) =
      some [("error", GoValue.errorResponseVal (BuildError 400 "boom" 0))] ∧
    (BuildError 400 "boom" 0).message = "boom" ∧
    statusText 400 = "Bad Request" ∧
    ¬ ((BuildError 400 "boom" 0).message = statusText 400) :=
  ⟨rfl, rfl, rfl, by decide⟩

/-- C4 amended: for every in-range status code passed with a nil
validator, the ErrorResponse built has status the given code, its
status-text field the standard reason phrase for that code, its message
the given error's text (the NetioUnknownErr text when the error is
nil), and its timestamp the construction time. -/
theorem c4_builds_error_response (w : ResponseWriter) (key : String) (e : Option String)
    (code : Int) (now : Nat) (h1 : 100 ≤ code) (h2 : code ≤ 599) :
    ∃ k, (Error w key e code none now).body = w.body ++ [[(k, GoValue.errorResponseVal
      { status := code
        statusText := statusText code
        message := match e with
          | none => netioUnknownErrMsg
          | some s => s
        validationErrors := none
        timestamp := now })]] := by
  have hb := Error_body w key e code none now
  simp only [BuildError] at hb
  exact ⟨_, hb⟩

/-- Witness for C4 amended at code 400 and the error boom. -/
theorem c4_builds_error_response_witness :
    (100 : Int) ≤ 400 ∧ (400 : Int) ≤ 599 ∧
    ∃ k, (Error freshRecorder "error" (some "boom") 400 none 7).body =
      freshRecorder.body ++ [[(k, GoValue.errorResponseVal
        { status := 400
          statusText := statusText 400
          message := "boom"
          validationErrors := none
          timestamp := 7 })]] := by
  refine ⟨by decide, by decide, ?_⟩
  exact c4_builds_error_response freshRecorder "error" (some "boom") 400 7
    (by decide) (by decide)

/-- C10: with a non-nil validator the emitted ErrorResponse's message is
the fixed validation-failed text and the validator's error map is
attached as the validation detail even when it is empty, the passed
error being ignored entirely; with a nil validator the message is the
error's text, defaulting to the NetioUnknownErr text when the error is
nil. -/
theorem c10_validation_error_policy (w : ResponseWriter) (key : String) (e e2 : Option String)
    (code : Int) (vv : Validator) (now : Nat) :
    Error w key e code (some vv) now = Error w key e2 code (some vv) now ∧
    (∃ k, (Error w key e code (some vv) now).body = w.body ++ [[(k, GoValue.errorResponseVal
      { status := code
        statusText := statusText code
        message := netioValidationErrMsg
        validationErrors := some vv.errors
        timestamp := now })]]) ∧
    (∃ k, (Error w key e code none now).body = w.body ++ [[(k, GoValue.errorResponseVal
      { status := code
        statusText := statusText code
        message := match e with
          | none => netioUnknownErrMsg
          | some s => s
        validationErrors := none
        timestamp := now })]]) := by
  refine ⟨?_, ?_, ?_⟩
  · cases e <;> cases e2 <;> rfl
  · have hb := Error_body w key e code (some vv) now
    simp only [BuildErrorWithValidation] at hb
    exact ⟨_, hb⟩
  · have hb := Error_body w key e code none now
    simp only [BuildError] at hb
    exact ⟨_, hb⟩
